import Mathlib

/-!
Shallow embedding of the change-detection and aggregation pipeline of the
job-scraper repository (src/job_scraper and src/assignment_scraper).

The Python classes are modelled as explicit state passing: a method that
mutates `self` becomes a function from the state to a new state.  Machine
side effects (the JSON file on disk, the Slack posting, the Gemini call)
are modelled as explicit data: the file is an `Option (List Job)` (absent
or the serialized known list), the summarizer is a function returning
`Except Unit String`, and a notification attempt is recorded in a list.
-/

namespace JobScraper

/-- Embeds `JobOverview` from src/job_scraper/models.py: five optional
string fields (`title`, `company`, `description`, `delivery_date`,
`job_uri`), all defaulting to `None`. -/
structure JobOverview where
  title : Option String := none
  company : Option String := none
  description : Option String := none
  delivery_date : Option String := none
  job_uri : Option String := none
deriving DecidableEq, Repr

/-- Embeds `Job` from src/job_scraper/models.py. -/
structure Job where
  job_overview : JobOverview
  description : String
  description_summarised : Option String := none
  platform : Option String := none
deriving DecidableEq, Repr

/-- Embeds the computed field `Job.job_id` (src/job_scraper/models.py
lines 21-23): `return self.job_overview.job_uri`.  The URI is optional in
the model, so the identity is an `Option String`. -/
def jobId (j : Job) : Option String :=
  j.job_overview.job_uri

/-- Python `str.split(sep)` for a one-character separator, on the
character list of the string: the (always nonempty) list of chunks
between occurrences of `sep`. -/
def splitOnChar (sep : Char) : List Char → List (List Char)
  | [] => [[]]
  | c :: rest =>
    if c = sep then [] :: splitOnChar sep rest
    else
      match splitOnChar sep rest with
      | [] => [[c]]
      | p :: ps => (c :: p) :: ps

/-- Embeds the computed field `Tender.tender_id`
(src/assignment_scraper/models.py lines 25-27):
`self.tender_overview.tender_uri.split("/")[-1].split(".")[0]`.
Python `str.split(sep)` always yields a nonempty list, so `[-1]` is the
last chunk and `[0]` the first. -/
def tenderId (tender_uri : String) : String :=
  String.mk
    ((splitOnChar '.' ((splitOnChar '/' tender_uri.data).getLastD [])).headD [])

/-- Embeds `TenderOverview` from src/assignment_scraper/models.py: seven
required string fields. -/
structure TenderOverview where
  job_type : String
  title : String
  company : String
  description : String
  delivery_date : String
  status : String
  tender_uri : String
deriving DecidableEq, Repr

/-- Embeds `Tender` from src/assignment_scraper/models.py. -/
structure Tender where
  tender_overview : TenderOverview
  description : String
deriving DecidableEq, Repr

/-- The computed field `Tender.tender_id` as a function of the whole
record. -/
def tenderIdOf (t : Tender) : String :=
  tenderId t.tender_overview.tender_uri

/-- The in-memory state of `NewJobPostDetector`
(src/job_scraper/new_job_detector.py): the ordered list `known_jobs` and
the set `known_ids` built from it for membership checks. -/
structure Detector where
  known_jobs : List Job
  known_ids : Finset (Option String)
deriving DecidableEq

/-- Builds a detector from an already-parsed known list, as the tail of
`NewJobPostDetector.__init__` does:
`self.known_ids = \x7bt.job_id for t in self.known_jobs\x7d`. -/
def mkDetector (js : List Job) : Detector :=
  { known_jobs := js, known_ids := (js.map jobId).toFinset }

/-- Load failure, raised when the state file exists but does not parse
(pydantic `validate_json` raising out of `__init__`; the spec calls this
`DataCorruption`). -/
inductive LoadError where
  | dataCorruption
deriving DecidableEq, Repr

/-- Embeds `NewJobPostDetector.__init__` (src/job_scraper/new_job_detector.py
lines 11-21).  The filesystem at `file_path` is `none` when
`os.path.isfile` is false, otherwise `some contents`; `parse` stands for
`JobListModel.validate_json`, returning `none` when it raises. -/
def loadDetector (parse : String → Option (List Job)) (file : Option String) :
    Except LoadError Detector :=
  match file with
  | none => Except.ok (mkDetector [])
  | some contents =>
    match parse contents with
    | none => Except.error LoadError.dataCorruption
    | some js => Except.ok (mkDetector js)

/-- Embeds `NewJobPostDetector.detect_new_jobs`
(src/job_scraper/new_job_detector.py lines 23-29):
`[t for t in scraped_jobs if t.job_id not in self.known_ids]`.
The method only reads `self`, so the embedding returns the unchanged
detector alongside the result. -/
def detectNewJobs (d : Detector) (scraped_jobs : List Job) :
    List Job × Detector :=
  (scraped_jobs.filter (fun t => decide (jobId t ∉ d.known_ids)), d)

/-- One iteration of the loop of `NewJobPostDetector.update_known_jobs`
(src/job_scraper/new_job_detector.py lines 36-42), carrying the detector
and the `updated` flag: a posting whose id is not yet known is appended
to `known_jobs`, its id added to `known_ids`, and the flag set. -/
def updateStep (acc : Detector × Bool) (t : Job) : Detector × Bool :=
  if jobId t ∈ acc.1.known_ids then acc
  else ({ known_jobs := acc.1.known_jobs ++ [t],
          known_ids := insert (jobId t) acc.1.known_ids }, true)

/-- The fold itself, started with `updated = False` as in the source. -/
def updateKnownJobs (d : Detector) (new_jobs : List Job) : Detector × Bool :=
  new_jobs.foldl updateStep (d, false)

/-- Embeds `update_known_jobs` including its write-out
(src/job_scraper/new_job_detector.py lines 44-47): after the loop, the
file is overwritten with the serialized known list only when `updated` is
true.  The file on disk is modelled as `Option (List Job)` (absent, or
the postings it serializes); the third component records whether a write
happened. -/
def updateKnownJobsOnDisk (d : Detector) (file : Option (List Job))
    (new_jobs : List Job) : Detector × Option (List Job) × Bool :=
  let d2 := (updateKnownJobs d new_jobs).1
  let updated := (updateKnownJobs d new_jobs).2
  (d2, if updated then some d2.known_jobs else file, updated)

/-- Result of one pipeline run (`main` in src/job_scraper/main.py):
the postings for which a notification was attempted, whether the
per-posting loop ran to completion, and the final detector and file
states. -/
structure RunResult where
  notified : List Job
  completed : Bool
  det : Detector
  file : Option (List Job)
deriving DecidableEq

/-- Embeds the per-posting loop of `main` (src/job_scraper/main.py lines
200-202): for each new job, `job.description_summarised =
summarizer.summarize(job.description)` and then
`slack_poster.post_job(job)`.  The summarize call is NOT guarded by any
try/except in the source, so a summarizer failure propagates: the current
posting is not notified and the loop stops.  `post_job` catches
`SlackApiError` internally, so a notification attempt happens for every
posting the loop reaches.  Returns the notified postings in order and
whether the loop completed without a summarizer exception. -/
def driverLoop (summarize : String → Except Unit String) :
    List Job → List Job × Bool
  | [] => ([], true)
  | j :: rest =>
    match summarize j.description with
    | Except.error _ => ([], false)
    | Except.ok s =>
      match driverLoop summarize rest with
      | (ns, c) => ({ j with description_summarised := some s } :: ns, c)

/-- Embeds the tail of `main` (src/job_scraper/main.py lines 197-204)
after scraping: detect the new jobs, run the per-posting
summarize-and-post loop, and, only when the loop did not raise, commit
via `update_known_jobs` (an exception in the loop propagates out of
`main`, so the commit line is never reached).  The loop mutates the
`Job` objects of `new_jobs` in place, so when the loop completes the
list passed to `update_known_jobs` is exactly the summarized list the
loop notified. -/
def runPipeline (summarize : String → Except Unit String) (d : Detector)
    (file : Option (List Job)) (scraped_jobs : List Job) : RunResult :=
  match detectNewJobs d scraped_jobs with
  | (new_jobs, d1) =>
    match driverLoop summarize new_jobs with
    | (notified, completed) =>
      if completed then
        match updateKnownJobsOnDisk d1 file notified with
        | (d2, file2, _) =>
          { notified := notified, completed := true, det := d2, file := file2 }
      else
        { notified := notified, completed := false, det := d1, file := file }

/-- One iteration of the collection loop of `run_scrapers`
(src/job_scraper/main.py lines 129-153).  Each connector is its
`job_platform` name together with its outcome from
`asyncio.gather(..., return_exceptions=True)`: either a list of postings
or an exception.  The loop logs an error naming the platform for a
failure and extends `scraped_jobs` for a success. -/
def scrapeStep (acc : List Job × List String)
    (pr : String × Except Unit (List Job)) : List Job × List String :=
  match pr.2 with
  | Except.error _ => (acc.1, acc.2 ++ [pr.1])
  | Except.ok js => (acc.1 ++ js, acc.2)

/-- The collection fold of `run_scrapers`, over the zipped
(platform, outcome) pairs, starting from no postings and no logged
errors. -/
def runScrapers (results : List (String × Except Unit (List Job))) :
    List Job × List String :=
  results.foldl scrapeStep ([], [])

/-- Characterization helper for the commit loop: the postings of a batch
that get appended to the known list, namely the first occurrence of each
identity not already in `ids`, in batch order. -/
def firstNew (ids : Finset (Option String)) : List Job → List Job
  | [] => []
  | t :: ts =>
    if jobId t ∈ ids then firstNew ids ts
    else t :: firstNew (insert (jobId t) ids) ts

/-- A posting with the given URI as its identity and otherwise fixed
fields, for the concrete scenarios. -/
def mkJob (uri : String) : Job :=
  { job_overview := { job_uri := some uri }, description := "desc" }

/-- A second posting with identity `"B"` but a different title, playing
the duplicate reported by another connector in the end-to-end scenario. -/
def jobBdup : Job :=
  { job_overview := { title := some "other", job_uri := some "B" },
    description := "desc2" }

/-- A posting whose source URI is the empty string; its derived identity
is then the empty string. -/
def jobEmptyUri : Job :=
  { job_overview := { job_uri := some "" }, description := "desc" }

/-- The store of the end-to-end scenario: one known posting with
identity `"A"`. -/
def storeA : Detector := mkDetector [mkJob "A"]

/-- The aggregated batch of the end-to-end scenario: identities
`["A", "B", "B", "C"]`, the duplicate `"B"` coming from two connectors. -/
def batchABBC : List Job := [mkJob "A", mkJob "B", jobBdup, mkJob "C"]

/-- A tender with the given URI and status and fixed remaining fields. -/
def mkTender (uri status : String) : Tender :=
  { tender_overview :=
      { job_type := "jt", title := "t", company := "c", description := "d",
        delivery_date := "dd", status := status, tender_uri := uri },
    description := "d" }

/-- A posting whose description the failing summarizer rejects, placed
after a posting it accepts, to exercise a mid-loop summarizer failure. -/
def jobFailDesc : Job :=
  { job_overview := { job_uri := some "Z" }, description := "descfail" }

/-- A summarizer that fails exactly on the description of
`jobFailDesc` and succeeds on every other description. -/
def failingSummarizer : String → Except Unit String :=
  fun s => if s = "descfail" then Except.error () else Except.ok s

/-- The invariant of `NewJobPostDetector` implicit in the source: the
membership set `known_ids` is exactly the set of `job_id` values of the
`known_jobs` sequence. -/
def DetectorInv (d : Detector) : Prop :=
  d.known_ids = (d.known_jobs.map jobId).toFinset

lemma updateFold_known_ids (b : List Job) : ∀ (d : Detector) (u : Bool),
    ((b.foldl updateStep (d, u)).1).known_ids =
      d.known_ids ∪ (b.map jobId).toFinset := by
  induction b with
  | nil => intro d u; simp
  | cons t ts ih =>
    intro d u
    by_cases h : jobId t ∈ d.known_ids
    · rw [List.foldl_cons, updateStep, if_pos h, ih, List.map_cons,
        List.toFinset_cons, Finset.union_insert,
        Finset.insert_eq_self.mpr (Finset.mem_union_left _ h)]
    · rw [List.foldl_cons, updateStep, if_neg h, ih, List.map_cons,
        List.toFinset_cons, Finset.union_insert, Finset.insert_union]

lemma updateFold_known_jobs (b : List Job) : ∀ (d : Detector) (u : Bool),
    ((b.foldl updateStep (d, u)).1).known_jobs =
      d.known_jobs ++ firstNew d.known_ids b := by
  induction b with
  | nil => intro d u; simp [firstNew]
  | cons t ts ih =>
    intro d u
    by_cases h : jobId t ∈ d.known_ids
    · rw [List.foldl_cons, updateStep, if_pos h, ih, firstNew, if_pos h]
    · rw [List.foldl_cons, updateStep, if_neg h, ih, firstNew, if_neg h]
      simp

lemma updateFold_flag (b : List Job) : ∀ (d : Detector) (u : Bool),
    (b.foldl updateStep (d, u)).2 =
      (u || b.any (fun t => decide (jobId t ∉ d.known_ids))) := by
  induction b with
  | nil => intro d u; simp
  | cons t ts ih =>
    intro d u
    by_cases h : jobId t ∈ d.known_ids
    · rw [List.foldl_cons, updateStep, if_pos h, ih]
      simp [h]
    · rw [List.foldl_cons, updateStep, if_neg h, ih]
      simp [h]

lemma firstNew_length (b : List Job) : ∀ (ids : Finset (Option String)),
    (firstNew ids b).length = ((b.map jobId).toFinset \ ids).card := by
  induction b with
  | nil => intro ids; simp [firstNew]
  | cons t ts ih =>
    intro ids
    by_cases h : jobId t ∈ ids
    · rw [firstNew, if_pos h, ih, List.map_cons, List.toFinset_cons,
        Finset.insert_sdiff_of_mem _ h]
    · rw [firstNew, if_neg h, List.length_cons, ih, List.map_cons,
        List.toFinset_cons]
      have hset : insert (jobId t) ((ts.map jobId).toFinset) \ ids
          = insert (jobId t)
              (((ts.map jobId).toFinset) \ insert (jobId t) ids) := by
        ext x
        by_cases hx : x = jobId t <;> simp [hx, h]
      rw [hset, Finset.card_insert_of_not_mem (by simp)]

lemma firstNew_fresh (b : List Job) : ∀ (ids : Finset (Option String)),
    ((firstNew ids b).map jobId).Nodup ∧
      ∀ t ∈ firstNew ids b, jobId t ∉ ids := by
  induction b with
  | nil => intro ids; simp [firstNew]
  | cons t ts ih =>
    intro ids
    by_cases h : jobId t ∈ ids
    · rw [firstNew, if_pos h]; exact ih ids
    · rw [firstNew, if_neg h]
      refine ⟨?_, ?_⟩
      · rw [List.map_cons, List.nodup_cons]
        refine ⟨?_, (ih (insert (jobId t) ids)).1⟩
        intro hmem
        rcases List.mem_map.mp hmem with ⟨t2, ht2, heq⟩
        exact (ih (insert (jobId t) ids)).2 t2 ht2
          (heq ▸ Finset.mem_insert_self _ _)
      · intro t2 ht2
        rcases List.mem_cons.mp ht2 with he | hm
        · exact he ▸ h
        · intro hin
          exact (ih (insert (jobId t) ids)).2 t2 hm
            (Finset.mem_insert_of_mem hin)

/-- C1: idempotence of detection.  For every posting sequence `P` and
every identity-store state `d`, after `update_known_jobs` is applied to
the result of `detect_new_jobs` on `P`, a second `detect_new_jobs` on the
same `P` against the updated store returns the empty list. -/
theorem detect_after_commit_empty (d : Detector) (P : List Job) :
    (detectNewJobs (updateKnownJobs d (detectNewJobs d P).1).1 P).1 = [] := by
  simp only [detectNewJobs, updateKnownJobs]
  rw [List.filter_eq_nil_iff]
  intro p hp
  simp only [decide_eq_true_eq, not_not]
  rw [updateFold_known_ids]
  by_cases h : jobId p ∈ d.known_ids
  · exact Finset.mem_union_left _ h
  · refine Finset.mem_union_right _ (List.mem_toFinset.mpr ?_)
    exact List.mem_map_of_mem jobId (List.mem_filter.mpr ⟨hp, by simp [h]⟩)

/-- C2: partition correctness.  `detect_new_jobs` returns exactly the
subsequence of the candidates whose identities are not in the store's
known-identity set (as a sublist, so relative order is preserved, with
membership and multiplicity matching the filter), and the store itself is
returned unchanged (pure read). -/
theorem partition_exact (d : Detector) (P : List Job) :
    ((detectNewJobs d P).1).Sublist P ∧
    (∀ p : Job, p ∈ (detectNewJobs d P).1 ↔ p ∈ P ∧ jobId p ∉ d.known_ids) ∧
    (∀ p : Job, ((detectNewJobs d P).1).count p
        = if jobId p ∉ d.known_ids then P.count p else 0) ∧
    (detectNewJobs d P).2 = d := by
  refine ⟨List.filter_sublist _, ?_, ?_, rfl⟩
  · intro p
    simp [detectNewJobs, List.mem_filter]
  · intro p
    simp only [detectNewJobs]
    by_cases h : jobId p ∈ d.known_ids
    · rw [if_neg (by simpa using h), List.count_eq_zero]
      intro hmem
      exact (by simpa using (List.mem_filter.mp hmem).2 : jobId p ∉ d.known_ids) h
    · rw [if_pos (by simpa using h), List.count_filter (by simp [h])]

/-- C3: dedup within a batch on commit.  For every batch, the known
sequence is extended by exactly `firstNew`, the first occurrence of each
not-already-known identity in batch order (the appended postings have
pairwise distinct identities, none already known, so later duplicates are
skipped); both the identity set and the known sequence grow by exactly
the number of distinct identities in the batch that were not already
known. -/
theorem commit_dedups_within_batch (d : Detector) (batch : List Job) :
    (updateKnownJobs d batch).1.known_jobs
        = d.known_jobs ++ firstNew d.known_ids batch ∧
    ((firstNew d.known_ids batch).map jobId).Nodup ∧
    (∀ t ∈ firstNew d.known_ids batch, jobId t ∉ d.known_ids) ∧
    (updateKnownJobs d batch).1.known_ids.card
        = d.known_ids.card + ((batch.map jobId).toFinset \ d.known_ids).card ∧
    (updateKnownJobs d batch).1.known_jobs.length
        = d.known_jobs.length
          + ((batch.map jobId).toFinset \ d.known_ids).card := by
  refine ⟨updateFold_known_jobs batch d false, (firstNew_fresh batch _).1,
    (firstNew_fresh batch _).2, ?_, ?_⟩
  · rw [updateKnownJobs, updateFold_known_ids, Finset.union_comm,
      ← Finset.card_sdiff_add_card, Nat.add_comm]
  · rw [updateKnownJobs, updateFold_known_jobs, List.length_append,
      firstNew_length]

/-- C4 counterexample: in the end-to-end scenario (store knows `"A"`,
aggregated identities `["A", "B", "B", "C"]`), `detect_new_jobs` keeps
BOTH occurrences of `"B"` — it filters against the stored ids only and
does not dedup within the batch — so it returns 3 items, not the 2 the
claim states, and the driver loop attempts 3 notifications, not 2. -/
theorem endtoend_counterexample :
    (detectNewJobs storeA batchABBC).1 = [mkJob "B", jobBdup, mkJob "C"] ∧
    (detectNewJobs storeA batchABBC).1.length ≠ 2 ∧
    (driverLoop (fun s => Except.ok s)
        (detectNewJobs storeA batchABBC).1).1.length = 3 := by
  decide

/-- C4 amended: with a store containing identity `"A"` and aggregated
identities `["A", "B", "B", "C"]`, `detect_new_jobs` returns the three
items for both occurrences of `"B"` and for `"C"`, excluding `"A"`; after
`update_known_jobs` the store's identity set is exactly
`{"A", "B", "C"}`; and exactly 3 notifications are attempted by the
driver loop. -/
theorem endtoend_amended :
    (detectNewJobs storeA batchABBC).1 = [mkJob "B", jobBdup, mkJob "C"] ∧
    (updateKnownJobs storeA (detectNewJobs storeA batchABBC).1).1.known_ids
        = {some "A", some "B", some "C"} ∧
    (driverLoop (fun s => Except.ok s)
        (detectNewJobs storeA batchABBC).1).1.length = 3 := by
  decide

/-- C5 counterexample: a fresh posting (so it is detected as new) whose
summarization fails is NOT notified with its unsummarized description,
and the run does NOT reach the commit step: `main` has no try/except
around `summarizer.summarize`, so the exception aborts the loop — nothing
is notified, the loop does not complete, and store and file are left as
they were. -/
theorem summarizer_failure_counterexample :
    (detectNewJobs (mkDetector []) [mkJob "X"]).1 = [mkJob "X"] ∧
    runPipeline (fun _ => Except.error ()) (mkDetector []) none [mkJob "X"]
      = { notified := [], completed := false, det := mkDetector [],
          file := none } := by
  decide

lemma driverLoop_append_fail (summarize : String → Except Unit String)
    (j : Job) (rest : List Job)
    (hfail : summarize j.description = Except.error ()) :
    ∀ pre : List Job,
    (∀ p ∈ pre, ∃ s, summarize p.description = Except.ok s) →
    driverLoop summarize (pre ++ j :: rest)
      = ((driverLoop summarize pre).1, false) := by
  intro pre
  induction pre with
  | nil =>
    intro _
    simp only [List.nil_append]
    simp [driverLoop, hfail]
  | cons p ps ih =>
    intro hpre
    obtain ⟨s, hs⟩ := hpre p (List.mem_cons_self p ps)
    have ihh := ih (fun q hq => hpre q (List.mem_cons_of_mem p hq))
    rcases hps : driverLoop summarize ps with ⟨ns, c⟩
    rw [hps] at ihh
    simp only [List.cons_append, driverLoop, hs, List.append_eq, ihh, hps]

lemma driverLoop_ok_length (summarize : String → Except Unit String) :
    ∀ pre : List Job,
    (∀ p ∈ pre, ∃ s, summarize p.description = Except.ok s) →
    (driverLoop summarize pre).1.length = pre.length := by
  intro pre
  induction pre with
  | nil => intro _; rfl
  | cons p ps ih =>
    intro hpre
    obtain ⟨s, hs⟩ := hpre p (List.mem_cons_self p ps)
    have ihh := ih (fun q hq => hpre q (List.mem_cons_of_mem p hq))
    rcases hps : driverLoop summarize ps with ⟨ns, c⟩
    rw [hps] at ihh
    simp only [driverLoop, hs, hps, List.length_cons]
    simp [ihh]

/-- C5 amended: if the summarizer fails for any posting of the detected
list — after the postings before it were summarized and notified — the
exception propagates out of the per-posting loop: the failing posting and
all later ones are not notified (the notified list is exactly the
summarized prefix before the failing posting), the loop does not
complete, and the run ends without committing — the store and the file
are unchanged. -/
theorem summarizer_failure_aborts (summarize : String → Except Unit String)
    (d : Detector) (file : Option (List Job)) (scraped : List Job)
    (pre : List Job) (j : Job) (rest : List Job)
    (hnew : (detectNewJobs d scraped).1 = pre ++ j :: rest)
    (hpre : ∀ p ∈ pre, ∃ s, summarize p.description = Except.ok s)
    (hfail : summarize j.description = Except.error ()) :
    runPipeline summarize d file scraped
      = { notified := (driverLoop summarize pre).1, completed := false,
          det := d, file := file } ∧
    (runPipeline summarize d file scraped).notified.length = pre.length := by
  have hdet : detectNewJobs d scraped = (pre ++ j :: rest, d) := by
    have hnew2 : scraped.filter (fun t => decide (jobId t ∉ d.known_ids))
        = pre ++ j :: rest := hnew
    rw [detectNewJobs, hnew2]
  have hloop := driverLoop_append_fail summarize j rest hfail pre hpre
  constructor
  · rw [runPipeline, hdet]
    simp only [hloop]
    rfl
  · rw [runPipeline, hdet]
    simp only [hloop]
    exact driverLoop_ok_length summarize pre hpre

/-- Witness for `summarizer_failure_aborts` at a concrete input: the
summarizer succeeds on the first detected posting and fails on the
second, so exactly one posting is notified and nothing is committed. -/
theorem summarizer_failure_aborts_witness :
    runPipeline failingSummarizer (mkDetector []) none
        [mkJob "Y", jobFailDesc]
      = { notified := (driverLoop failingSummarizer [mkJob "Y"]).1,
          completed := false, det := mkDetector [], file := none } ∧
    (runPipeline failingSummarizer (mkDetector []) none
        [mkJob "Y", jobFailDesc]).notified.length = [mkJob "Y"].length :=
  summarizer_failure_aborts failingSummarizer (mkDetector []) none
    [mkJob "Y", jobFailDesc] [mkJob "Y"] jobFailDesc []
    (by decide)
    (fun p hp => by
      rw [List.mem_singleton] at hp
      subst hp
      exact ⟨"desc", rfl⟩)
    rfl

/-- C6: load behavior at the filesystem boundary.  For every parse
function and path contents: a nonexistent file yields a store with empty
known sequence and empty identity set, with no error; an existing file
whose contents do not parse yields the fatal `dataCorruption` error, not
a partially recovered store. -/
theorem load_missing_vs_corrupt (parse : String → Option (List Job))
    (s : String) (hbad : parse s = none) :
    loadDetector parse none = Except.ok (mkDetector []) ∧
    (mkDetector []).known_jobs = [] ∧
    (mkDetector []).known_ids = ∅ ∧
    loadDetector parse (some s) = Except.error LoadError.dataCorruption := by
  refine ⟨rfl, rfl, rfl, ?_⟩
  rw [loadDetector, hbad]

/-- Witness for `load_missing_vs_corrupt` with a concrete never-parsing
parse function and concrete contents. -/
theorem load_missing_vs_corrupt_witness :
    loadDetector (fun _ => none) none = Except.ok (mkDetector []) ∧
    (mkDetector []).known_jobs = [] ∧
    (mkDetector []).known_ids = ∅ ∧
    loadDetector (fun _ => none) (some "garbage")
      = Except.error LoadError.dataCorruption :=
  load_missing_vs_corrupt (fun _ => none) "garbage" rfl

/-- C7: no unnecessary writes.  For every store, file state and batch:
the write flag of `update_known_jobs` is set exactly when some posting in
the batch has an identity not already known, and the file is overwritten
with the serialized new known list exactly when that flag is set,
otherwise left untouched. -/
theorem commit_writes_iff_new (d : Detector) (file : Option (List Job))
    (batch : List Job) :
    ((updateKnownJobsOnDisk d file batch).2.2 = true
        ↔ ∃ t ∈ batch, jobId t ∉ d.known_ids) ∧
    (updateKnownJobsOnDisk d file batch).2.1
      = (if (updateKnownJobsOnDisk d file batch).2.2
          then some ((updateKnownJobsOnDisk d file batch).1.known_jobs)
          else file) := by
  refine ⟨?_, rfl⟩
  show (updateKnownJobs d batch).2 = true ↔ _
  rw [updateKnownJobs, updateFold_flag]
  simp [List.any_eq_true]

/-- Witness for `commit_writes_iff_new` at a concrete input: an empty
store, an absent file and a one-posting batch. -/
theorem commit_writes_iff_new_witness :
    ((updateKnownJobsOnDisk (mkDetector []) none [mkJob "W"]).2.2 = true
        ↔ ∃ t ∈ [mkJob "W"], jobId t ∉ (mkDetector []).known_ids) ∧
    (updateKnownJobsOnDisk (mkDetector []) none [mkJob "W"]).2.1
      = (if (updateKnownJobsOnDisk (mkDetector []) none [mkJob "W"]).2.2
          then some ((updateKnownJobsOnDisk (mkDetector [])
              none [mkJob "W"]).1.known_jobs)
          else none) :=
  commit_writes_iff_new (mkDetector []) none [mkJob "W"]

/-- C8 counterexample: the derived identity is not always a non-empty
string.  A job whose `job_uri` is the empty string has `job_id` equal to
the empty string, and a tender whose `tender_uri` is empty has an empty
`tender_id` — the code never enforces non-emptiness. -/
theorem identity_empty_counterexample :
    jobId jobEmptyUri = some "" ∧ tenderIdOf (mkTender "" "open") = "" := by
  decide

/-- C8 amended: the derived identity is a deterministic pure function of
the posting's source URI alone — two jobs with equal `job_uri` have equal
`job_id`, and two tenders with equal `tender_uri` have equal `tender_id`,
whatever their other fields — but the code does not guarantee the
identity is non-empty (the job identity is the optional URI verbatim). -/
theorem identity_deterministic (j1 j2 : Job) (t1 t2 : Tender)
    (hj : j1.job_overview.job_uri = j2.job_overview.job_uri)
    (ht : t1.tender_overview.tender_uri = t2.tender_overview.tender_uri) :
    jobId j1 = jobId j2 ∧ tenderIdOf t1 = tenderIdOf t2 := by
  rw [jobId, jobId, hj, tenderIdOf, tenderIdOf, ht]
  exact ⟨rfl, rfl⟩

/-- Witness for `identity_deterministic`: a pair of jobs sharing a URI
but differing in title and description, and a pair of tenders sharing a
URI but differing in status. -/
theorem identity_deterministic_witness :
    jobId (mkJob "U")
        = jobId { job_overview := { title := some "alt", job_uri := some "U" },
                  description := "other" } ∧
    tenderIdOf (mkTender "/a/b.c" "open")
        = tenderIdOf (mkTender "/a/b.c" "closed") :=
  identity_deterministic _ _ _ _ rfl rfl

lemma runScrapers_aux (rs : List (String × Except Unit (List Job))) :
    ∀ (a : List Job) (b : List String),
    rs.foldl scrapeStep (a, b)
      = (a ++ (rs.filterMap (fun pr => pr.2.toOption)).flatten,
          b ++ rs.filterMap (fun pr =>
            match pr.2 with
            | Except.error _ => some pr.1
            | Except.ok _ => none)) := by
  induction rs with
  | nil => intro a b; simp
  | cons pr rest ih =>
    intro a b
    rcases pr with ⟨name, r⟩
    cases r with
    | error e =>
      rw [List.foldl_cons, scrapeStep]
      simp only [ih, List.filterMap_cons, Except.toOption, List.append_assoc,
        List.singleton_append]
    | ok js =>
      rw [List.foldl_cons, scrapeStep]
      simp only [ih, List.filterMap_cons, Except.toOption, List.flatten,
        List.append_assoc]

/-- C9: aggregator failure isolation.  For every assignment of
per-connector outcomes, `run_scrapers` collects exactly the concatenation
of the successful connectors' posting lists, in connector order, and logs
exactly the platform names of the failed connectors — a failure
contributes zero postings and one logged name, and never disturbs the
others' postings. -/
theorem collect_failure_isolation
    (results : List (String × Except Unit (List Job))) :
    (runScrapers results).1
        = (results.filterMap (fun pr => pr.2.toOption)).flatten ∧
    (runScrapers results).2
        = results.filterMap (fun pr =>
            match pr.2 with
            | Except.error _ => some pr.1
            | Except.ok _ => none) := by
  rw [runScrapers, runScrapers_aux]
  exact ⟨rfl, rfl⟩

lemma updateFold_inv (b : List Job) : ∀ (d : Detector) (u : Bool),
    DetectorInv d → DetectorInv ((b.foldl updateStep (d, u)).1) := by
  induction b with
  | nil => intro d u hd; exact hd
  | cons t ts ih =>
    intro d u hd
    by_cases h : jobId t ∈ d.known_ids
    · rw [List.foldl_cons, updateStep, if_pos h]
      exact ih d u hd
    · rw [List.foldl_cons, updateStep, if_neg h]
      refine ih _ true ?_
      show insert (jobId t) d.known_ids = ((d.known_jobs ++ [t]).map jobId).toFinset
      rw [DetectorInv] at hd
      rw [hd]
      ext y
      simp [or_comm]

lemma loadDetector_inv (parse : String → Option (List Job))
    (file : Option String) (d0 : Detector)
    (hload : loadDetector parse file = Except.ok d0) : DetectorInv d0 := by
  cases file with
  | none =>
    cases hload
    rfl
  | some s =>
    rw [loadDetector] at hload
    cases hp : parse s with
    | none => rw [hp] at hload; cases hload
    | some js => rw [hp] at hload; cases hload; rfl

/-- C10: implicit store invariant.  After construction (a successful
load) the identity set equals the set of `job_id` values of the known
sequence; `detect_new_jobs` returns the store unchanged so it preserves
the invariant; and `update_known_jobs` preserves it — the set and the
sequence never drift apart. -/
theorem known_ids_matches_known_jobs (parse : String → Option (List Job))
    (file : Option String) (d0 : Detector) (d : Detector)
    (scraped batch : List Job)
    (hload : loadDetector parse file = Except.ok d0) (hinv : DetectorInv d) :
    DetectorInv d0 ∧ DetectorInv (detectNewJobs d scraped).2 ∧
    DetectorInv (updateKnownJobs d batch).1 :=
  ⟨loadDetector_inv parse file d0 hload, hinv, updateFold_inv batch d false hinv⟩

/-- Witness for `known_ids_matches_known_jobs` at concrete inputs: an
absent file loads to the empty detector, and the store that knows
`"A"` keeps the invariant through a detect and an update. -/
theorem known_ids_matches_known_jobs_witness :
    DetectorInv (mkDetector []) ∧
    DetectorInv (detectNewJobs storeA batchABBC).2 ∧
    DetectorInv (updateKnownJobs storeA batchABBC).1 :=
  known_ids_matches_known_jobs (fun _ => none) none (mkDetector []) storeA
    batchABBC batchABBC rfl rfl

end JobScraper
